import Mathlib

/-!
Verification of the search/ranking subsystem of the Radiant-Retirement
directory site.  The JavaScript sources are shallowly embedded below:

* `static/js/search.js`   — browser filter (`filterSearchResults`,
  `calculateDistance`), autocomplete scorer (`findMatches` body =
  `scoreCity`), `getEditDistance`;
* `netlify/functions/search.js` — serverless filters;
* `scripts/page_generation/search_api.js` — server filters, result
  comparator and pagination.

Strings are modelled as `List Char` (JS strings are compared
code-unit-wise; all data in the claims is ASCII), JS numbers that are
only ever compared or subtracted are modelled as `Int`/`Rat`, and the
floating-point haversine body (never exercised by any claim) is
abstracted as a function parameter `hav`.
-/

namespace Radiant

/-- JS `String.prototype.toLowerCase` restricted to ASCII, on char lists. -/
def lower (l : List Char) : List Char := l.map Char.toLower

/-- JS `String.prototype.trim`: strip whitespace from both ends. -/
def wsTrim (l : List Char) : List Char :=
  ((l.dropWhile Char.isWhitespace).reverse.dropWhile Char.isWhitespace).reverse

/-- JS `a.startsWith(b)` is `startsL b a`: is the first list a prefix of the second. -/
def startsL : List Char → List Char → Bool
  | [], _ => true
  | _ :: _, [] => false
  | c :: cs, d :: ds => c = d && startsL cs ds

/-- JS `a.includes(b)` is `subStr b a`: does the needle occur contiguously in the haystack. -/
def subStr (needle : List Char) : List Char → Bool
  | [] => needle.isEmpty
  | c :: rest => startsL needle (c :: rest) || subStr needle rest

/-- Worker for `splitWs`.  The accumulator is `some cur` while building a word
(`cur` reversed) and `none` while skipping a whitespace run. -/
def splitWsAux : List Char → Option (List Char) → List (List Char)
  | [], none => [[]]
  | [], some cur => [cur.reverse]
  | c :: r, none =>
      if c.isWhitespace then splitWsAux r none else splitWsAux r (some [c])
  | c :: r, some cur =>
      if c.isWhitespace then cur.reverse :: splitWsAux r none
      else splitWsAux r (some (c :: cur))

/-- JS `s.split(/\s+/)`: split on maximal whitespace runs; a leading run
yields a leading empty piece and a trailing run a trailing empty piece. -/
def splitWs (l : List Char) : List (List Char) := splitWsAux l (some [])

/-- Minimum of three naturals, as used by `getEditDistance`. -/
def m3 (x y z : Nat) : Nat := min x (min y z)

/-- Classic Levenshtein distance (unit-cost insert / delete / substitute),
the mathematical specification the DP in `getEditDistance` is checked against. -/
def lev : List Char → List Char → Nat
  | [], t => t.length
  | a :: s, [] => (a :: s).length
  | a :: s, b :: t =>
      if a = b then lev s t
      else 1 + m3 (lev s t) (lev (a :: s) t) (lev s (b :: t))
termination_by s t => s.length + t.length
decreasing_by all_goals simp_arith

/-- Inner loop of `getEditDistance`: computes the cells `matrix[i][1..]` of a
new row.  `left` is the cell just written (`matrix[i][j-1]`), and the previous
row is passed starting at the diagonal cell (`matrix[i-1][j-1] :: matrix[i-1][j] :: _`).
A cell is `diag` on a character match and otherwise
`1 + min (diag) (left) (above)` exactly as in the source. -/
def rowAux (y : Char) : List Char → Nat → List Nat → List Nat
  | x :: as, left, diag :: above :: rest =>
      let cell := if y = x then diag
        else m3 (diag + 1) (left + 1) (above + 1)
      cell :: rowAux y as cell (above :: rest)
  | _, _, _ => []

/-- Outer loop of `getEditDistance`: one iteration per character of `b`,
each producing row `i` whose first cell is `i` (`matrix[i][0] = i`). -/
def runRows (a : List Char) : List Char → Nat → List Nat → List Nat
  | [], _, prev => prev
  | y :: bs, i, prev => runRows a bs (i + 1) ((i + 1) :: rowAux y a (i + 1) prev)

/-- `getEditDistance(a, b)` from `static/js/search.js`: early returns for an
empty argument, otherwise the Wagner–Fischer table with row 0 equal to
`[0, 1, …, |a|]`, rows indexed by `b`, answer `matrix[b.length][a.length]`. -/
def getEditDistance (a b : List Char) : Nat :=
  if a.length = 0 then b.length
  else if b.length = 0 then a.length
  else (runRows a b 0 (List.range (a.length + 1))).getD a.length 0

/-- Row `i` of the distance table as predicted by `lev`: cell `j` holds
`lev p (q ++ a.take j)` where `p` is the processed prefix of `b`. -/
def prevList (p q : List Char) : List Char → List Nat
  | [] => [lev p q]
  | x :: as => lev p q :: prevList p (q ++ [x]) as

/-- A city record of the data feed, with the fields read by `findMatches`
and by the browser-side `filterSearchResults`. -/
structure City where
  name : String
  state : String
  state_abbr : String
  population : Int
  facility_count : Int
  search_tokens : Option (List String)
  assisted_living_cost : Int
  coordinates : Option (Rat × Rat)

/-- A facility record with the fields read by the filters. -/
structure Facility where
  name : String
  city : String
  state : String
  care_types : List String
  amenities : List String
  rating : Rat
  coordinates : Option (Rat × Rat)

/-- Query normalisation at the head of `findMatches`:
`query.toLowerCase().trim()`. -/
def normQ (query : String) : List Char := wsTrim (lower query.data)

/-- Per-city body of `findMatches` up to (and excluding) the fuzzy check:
the sequential accumulation of the exact / starts-with / contains /
state / abbreviation / token / word-boundary signals, returning the
running `(score, matched)` pair. -/
def scoreBase (c : City) (query : String) : Nat × Bool :=
  let q := normQ query
  let cityName := lower c.name.data
  let stateName := lower c.state.data
  let stateAbbr := lower c.state_abbr.data
  let p0 : Nat × Bool := (0, false)
  let p1 := if cityName = q then (p0.1 + 100, true) else p0
  let p2 := if startsL q cityName then (p1.1 + 50, true) else p1
  let p3 := if subStr q cityName then (p2.1 + 25, true) else p2
  let p4 := if subStr q stateName then (p3.1 + 15, true) else p3
  let p5 := if stateAbbr = q then (p4.1 + 10, true) else p4
  let p6 := match c.search_tokens with
    | none => p5
    | some ts => ts.foldl (fun p t =>
        if t.data = q then (p.1 + 30, true)
        else if startsL q t.data then (p.1 + 20, true)
        else if subStr q t.data then (p.1 + 10, true)
        else p) p5
  (splitWs cityName).foldl (fun p w =>
      if w = q then (p.1 + 40, true)
      else if startsL q w then (p.1 + 30, true)
      else p) p6

/-- Full per-city body of `findMatches`: `scoreBase`, then the fuzzy
fallback (only when nothing matched, the query is longer than 3 and the
edit distance is at most 2), then the population / facility-count boosts
applied only to matched records. -/
def scoreCity (c : City) (query : String) : Nat × Bool :=
  let q := normQ query
  let cityName := lower c.name.data
  let pb := scoreBase c query
  let p8 := if pb.2 = false ∧ 3 < q.length ∧ getEditDistance cityName q ≤ 2
            then (pb.1 + 5, true) else pb
  let s9 := if p8.2 then (if 1000000 < c.population then p8.1 + 5 else p8.1) else p8.1
  let s10 := if p8.2 then (if 50 < c.facility_count then s9 + 3 else s9) else s9
  (s10, p8.2)

/-- Weight contributed by one search token (the else-if chain in the token loop). -/
def tokenWeight (q : List Char) (t : String) : Nat :=
  if t.data = q then 30 else if startsL q t.data then 20
  else if subStr q t.data then 10 else 0

/-- Whether one search token sets the `matched` flag. -/
def tokenHit (q : List Char) (t : String) : Bool :=
  decide (t.data = q) || startsL q t.data || subStr q t.data

/-- Weight contributed by one whitespace-delimited word of the city name. -/
def wordWeight (q w : List Char) : Nat :=
  if w = q then 40 else if startsL q w then 30 else 0

/-- Whether one word of the city name sets the `matched` flag. -/
def wordHit (q w : List Char) : Bool := decide (w = q) || startsL q w

/-- Additive restatement of `scoreBase`: the sum of the weights of all
non-fuzzy signals. -/
def cityBasePoints (c : City) (query : String) : Nat :=
  let q := normQ query
  let nm := lower c.name.data
  (if nm = q then 100 else 0) + (if startsL q nm then 50 else 0) +
  (if subStr q nm then 25 else 0) + (if subStr q (lower c.state.data) then 15 else 0) +
  (if lower c.state_abbr.data = q then 10 else 0) +
  (match c.search_tokens with | none => 0 | some ts => (ts.map (tokenWeight q)).sum) +
  ((splitWs nm).map (wordWeight q)).sum

/-- Disjunctive restatement of the `matched` flag of `scoreBase`. -/
def cityBaseHit (c : City) (query : String) : Bool :=
  let q := normQ query
  let nm := lower c.name.data
  decide (nm = q) || startsL q nm || subStr q nm ||
  subStr q (lower c.state.data) || decide (lower c.state_abbr.data = q) ||
  (match c.search_tokens with | none => false | some ts => ts.any (tokenHit q)) ||
  (splitWs nm).any (wordHit q)

/-- The gate of the fuzzy signal: no other signal matched, the query is
longer than 3 characters and the edit distance to the name is at most 2. -/
def fuzzyFires (c : City) (query : String) : Bool :=
  !cityBaseHit c query && decide (3 < (normQ query).length) &&
    decide (getEditDistance (lower c.name.data) (normQ query) ≤ 2)

/-- Population / facility-count boosts of `findMatches`. -/
def boostPoints (c : City) : Nat :=
  (if 1000000 < c.population then 5 else 0) +
  (if 50 < c.facility_count then 3 else 0)

/-- JS falsiness of a number-or-missing value: absent, or exactly 0. -/
def jsFalsyOpt (o : Option Rat) : Bool :=
  match o with | none => true | some x => decide (x = 0)

/-- JS truthiness of a number-or-null value (`lat && lng && …` guards). -/
def numTruthy (o : Option Rat) : Bool := !jsFalsyOpt o

/-- `calculateDistance` from `static/js/search.js`.  The sentinel branch
`if (!lat1 || !lng1 || !lat2 || !lng2) return 999999` is embedded exactly;
the floating-point haversine body is abstracted as the parameter `hav`
(no claim evaluates it). -/
def calculateDistance (hav : Rat → Rat → Rat → Rat → Rat)
    (lat1 lng1 lat2 lng2 : Option Rat) : Rat :=
  if jsFalsyOpt lat1 || jsFalsyOpt lng1 || jsFalsyOpt lat2 || jsFalsyOpt lng2 then 999999
  else hav (lat1.getD 0) (lng1.getD 0) (lat2.getD 0) (lng2.getD 0)

/-- Browser filter parameters, as extracted from the URL by `performSearch`. -/
structure SearchParams where
  query : String
  careType : String
  state : String
  costRange : String
  amenities : List String
  rating : Option Int
  lat : Option Rat
  lng : Option Rat
  distance : Rat

/-- Browser city predicate, free-text part. -/
def cityMatchesQuery (q : String) (c : City) : Bool :=
  q.isEmpty || subStr (lower q.data) (lower c.name.data) ||
    subStr (lower q.data) (lower c.state.data)

/-- Browser city predicate, state part: `!state || city.state_abbr === state`. -/
def cityMatchesState (st : String) (c : City) : Bool :=
  st.isEmpty || c.state_abbr == st

/-- Browser city predicate, cost-bracket part (the else-if chain that can
only reset `matchesCost` to false). -/
def cityMatchesCost (cr : String) (c : City) : Bool :=
  if cr.isEmpty then true
  else if cr == "under-3000" && decide (3000 ≤ c.assisted_living_cost) then false
  else if cr == "3000-4000" &&
      (decide (c.assisted_living_cost < 3000) || decide (4000 < c.assisted_living_cost)) then false
  else if cr == "4000-5000" &&
      (decide (c.assisted_living_cost < 4000) || decide (5000 < c.assisted_living_cost)) then false
  else if cr == "5000-6000" &&
      (decide (c.assisted_living_cost < 5000) || decide (6000 < c.assisted_living_cost)) then false
  else if cr == "over-6000" && decide (c.assisted_living_cost < 6000) then false
  else true

/-- Browser city predicate, radius part: the distance check runs only when
`lat && lng && city.coordinates` are all truthy, otherwise `matchesDistance`
keeps its initial value `true`. -/
def cityMatchesDistance (hav : Rat → Rat → Rat → Rat → Rat)
    (lat lng : Option Rat) (dist : Rat) (c : City) : Bool :=
  if numTruthy lat && numTruthy lng && c.coordinates.isSome then
    decide (calculateDistance hav lat lng
      (c.coordinates.map Prod.fst) (c.coordinates.map Prod.snd) ≤ dist)
  else true

/-- Browser city filter of `filterSearchResults` (conjunction of the four predicates). -/
def cityPasses (hav : Rat → Rat → Rat → Rat → Rat) (p : SearchParams) (c : City) : Bool :=
  cityMatchesQuery p.query c && cityMatchesState p.state c &&
    cityMatchesCost p.costRange c && cityMatchesDistance hav p.lat p.lng p.distance c

/-- Browser facility predicate, free-text part. -/
def facMatchesQuery (q : String) (f : Facility) : Bool :=
  q.isEmpty || subStr (lower q.data) (lower f.name.data) ||
    subStr (lower q.data) (lower f.city.data) || subStr (lower q.data) (lower f.state.data)

/-- Browser facility predicate, care-type part:
`!careType || facility.care_types.includes(careType)` (exact array membership). -/
def facMatchesCareType (ct : String) (f : Facility) : Bool :=
  ct.isEmpty || f.care_types.contains ct

/-- Browser facility predicate, state part: `!state || facility.state === state`. -/
def facMatchesState (st : String) (f : Facility) : Bool :=
  st.isEmpty || f.state == st

/-- Browser facility predicate, amenities part. -/
def facMatchesAmenities (ams : List String) (f : Facility) : Bool :=
  decide (ams.length = 0) || ams.all (fun a => f.amenities.contains a)

/-- Browser facility predicate, rating part. -/
def facMatchesRating (r : Option Int) (f : Facility) : Bool :=
  match r with | none => true | some n => decide ((n : Rat) ≤ f.rating)

/-- Browser facility predicate, radius part (same shape as the city one). -/
def facMatchesDistance (hav : Rat → Rat → Rat → Rat → Rat)
    (lat lng : Option Rat) (dist : Rat) (f : Facility) : Bool :=
  if numTruthy lat && numTruthy lng && f.coordinates.isSome then
    decide (calculateDistance hav lat lng
      (f.coordinates.map Prod.fst) (f.coordinates.map Prod.snd) ≤ dist)
  else true

/-- Browser facility filter of `filterSearchResults`. -/
def facPasses (hav : Rat → Rat → Rat → Rat → Rat) (p : SearchParams) (f : Facility) : Bool :=
  facMatchesQuery p.query f && facMatchesCareType p.careType f &&
    facMatchesState p.state f && facMatchesAmenities p.amenities f &&
    facMatchesRating p.rating f && facMatchesDistance hav p.lat p.lng p.distance f

/-- State filter applied to cities in `netlify/functions/search.js`:
lower-cased abbreviation equality, applied only when the filter is truthy. -/
def netlifyCityStateMatch (stFilter : String) (c : City) : Bool :=
  if stFilter.isEmpty then true
  else lower c.state_abbr.data == lower stFilter.data

/-- State filter applied to facilities in `netlify/functions/search.js`. -/
def netlifyFacStateMatch (stFilter : String) (f : Facility) : Bool :=
  if stFilter.isEmpty then true
  else lower f.state.data == lower stFilter.data

/-- Care-type filter of `netlify/functions/search.js`:
`careTypes.some(type => type.toLowerCase().includes(careTypeFilter.toLowerCase()))`. -/
def netlifyCareTypeMatch (ctFilter : String) (f : Facility) : Bool :=
  if ctFilter.isEmpty then true
  else f.care_types.any (fun t => subStr (lower ctFilter.data) (lower t.data))

/-- `type.toLowerCase().replace(/\s+/g, '-')` from `search_api.js`. -/
def hyphenNorm (t : String) : List Char :=
  List.intercalate ['-'] (splitWs (lower t.data))

/-- Care-type filter of `search_api.js` (the query parameter is lower-cased
at extraction): exact equality with each hyphen-normalised care type. -/
def serverCareTypeMatch (typeParam : String) (careTypes : List String) : Bool :=
  let ct := lower typeParam.data
  decide (ct = []) || careTypes.any (fun t => hyphenNorm t == ct)

/-- Cost-bracket filter of `search_api.js`.  `costs` models the optional
`costs` object, whose optional `monthly_avg` defaults to 0; with a
non-empty bracket and no `costs` object the record does not match. -/
def serverCostMatch (costParam : String) (costs : Option (Option Int)) : Bool :=
  let cr := lower costParam.data
  if cr = [] then true
  else match costs with
  | none => false
  | some mval =>
    let c := mval.getD 0
    if cr = "under-3000".data then decide (c < 3000)
    else if cr = "3000-4000".data then decide (3000 ≤ c) && decide (c < 4000)
    else if cr = "4000-5000".data then decide (4000 ≤ c) && decide (c < 5000)
    else if cr = "5000-6000".data then decide (5000 ≤ c) && decide (c < 6000)
    else if cr = "over-6000".data then decide (6000 ≤ c)
    else false

/-- Response shape of the `search_api.js` endpoint. -/
structure PageResult (α : Type) where
  items : List α
  total : Nat
  page : Nat
  limit : Nat
  pages : Nat

/-- Pagination of `search_api.js`: `offset = (page-1)*limit`,
`slice(offset, offset+limit)`, `pages = Math.ceil(total/limit)`
(`(total + limit - 1) / limit` in exact arithmetic for `limit > 0`). -/
def paginateApi {α : Type} (l : List α) (page limit : Nat) : PageResult α :=
  let offset := (page - 1) * limit
  { items := (l.drop offset).take limit
    total := l.length
    page := page
    limit := limit
    pages := (l.length + limit - 1) / limit }

/-- Result type discriminator of the `search_api.js` result objects. -/
inductive RType where
  | city : RType
  | facility : RType
deriving DecidableEq

/-- A combined search result as built by `search_api.js` (only the fields
the comparator reads). -/
structure SResult where
  rtype : RType
  name : String
  population : Int
  rating : Rat
deriving DecidableEq

/-- The sort key a result competes with inside its own type block:
population for cities, rating for facilities. -/
def rval (r : SResult) : Rat :=
  match r.rtype with
  | RType.city => (r.population : Rat)
  | RType.facility => r.rating

/-- The query-present comparator of `search_api.js` (a sequence of early
returns; the query is already lower-cased). -/
def cmpR (q : List Char) (a b : SResult) : Rat :=
  if a.rtype = RType.city ∧ b.rtype = RType.facility then -1
  else if a.rtype = RType.facility ∧ b.rtype = RType.city then 1
  else
    let an := lower a.name.data
    let bn := lower b.name.data
    if an = q ∧ bn ≠ q then -1
    else if an ≠ q ∧ bn = q then 1
    else if startsL q an = true ∧ startsL q bn = false then -1
    else if startsL q an = false ∧ startsL q bn = true then 1
    else if a.rtype = RType.city ∧ b.rtype = RType.city then
      ((b.population - a.population : Int) : Rat)
    else if a.rtype = RType.facility ∧ b.rtype = RType.facility then
      b.rating - a.rating
    else 0

/-- `allResults.sort(comparator)`: a stable sort placing `a` before `b`
whenever `cmpR q a b ≤ 0` (ES2019 `Array.prototype.sort` is stable). -/
def rankResults (q : List Char) (l : List SResult) : List SResult :=
  l.mergeSort (fun a b => decide (cmpR q a b ≤ 0))

/-- Does a result match the query exactly (criterion 2 of the spec's comparator). -/
def exactQ (q : List Char) (r : SResult) : Prop := lower r.name.data = q

/-- Does a result's name start with the query (criterion 3). -/
def prefQ (q : List Char) (r : SResult) : Prop := startsL q (lower r.name.data) = true

/-- Modelled from the spec's description of the ranking order: the
lexicographic four-criteria comparison — (1) cities before facilities,
(2) exact match first, (3) name-prefix match first, (4) descending
population / rating within a type. -/
def specLE (q : List Char) (a b : SResult) : Prop :=
  (a.rtype = RType.city ∧ b.rtype = RType.facility) ∨
  (a.rtype = b.rtype ∧
    ((exactQ q a ∧ ¬ exactQ q b) ∨
      ((exactQ q a ↔ exactQ q b) ∧
        ((prefQ q a ∧ ¬ prefQ q b) ∨
          ((prefQ q a ↔ prefQ q b) ∧ rval b ≤ rval a)))))

/-- Equality under all four ranking criteria of the spec. -/
def specEquiv (q : List Char) (a b : SResult) : Prop :=
  a.rtype = b.rtype ∧ (exactQ q a ↔ exactQ q b) ∧
    (prefQ q a ↔ prefQ q b) ∧ rval a = rval b

/-- A trivial stand-in for the haversine body, used in concrete witnesses
(the sentinel branch never reaches it). -/
def hav0 : Rat → Rat → Rat → Rat → Rat := fun _ _ _ _ => 0

/-- Sample city for the concrete counterexamples and witnesses. -/
def austinCity : City :=
  { name := "Austin", state := "Texas", state_abbr := "TX",
    population := 0, facility_count := 0, search_tokens := none,
    assisted_living_cost := 0, coordinates := none }

/-- Browser search parameters with an active geographic radius filter. -/
def geoParams : SearchParams :=
  { query := "austin", careType := "", state := "", costRange := "",
    amenities := [], rating := none, lat := some 30, lng := some (-97),
    distance := 25 }

/-- Sample city whose stored latitude is exactly 0. -/
def zeroLatCity : City := { austinCity with coordinates := some (0, 5) }

/-- Sample facility whose stored latitude is exactly 0. -/
def zeroLatFac : Facility :=
  { name := "Sunrise of Austin", city := "Austin", state := "Texas",
    care_types := ["assisted-living"], amenities := [], rating := 4,
    coordinates := some (0, 5) }

/-- Sample city result for the ranking-stability witness. -/
def resA : SResult :=
  { rtype := RType.city, name := "Springfield", population := 100, rating := 0 }

/-- Second sample city result, equal to `resA` under all four ranking criteria
for the query "spring". -/
def resB : SResult :=
  { rtype := RType.city, name := "Springville", population := 100, rating := 0 }

/-- Rank of the type discriminator in the comparator: cities first. -/
def typeRank (r : SResult) : Nat :=
  match r.rtype with
  | RType.city => 0
  | RType.facility => 1

instance exactQ_dec (q : List Char) (r : SResult) : Decidable (exactQ q r) :=
  inferInstanceAs (Decidable (lower r.name.data = q))

instance prefQ_dec (q : List Char) (r : SResult) : Decidable (prefQ q r) :=
  inferInstanceAs (Decidable (startsL q (lower r.name.data) = true))

/-- Rank of the exact-match criterion: exact matches first. -/
def eRank (q : List Char) (r : SResult) : Nat := if exactQ q r then 0 else 1

/-- Rank of the prefix criterion: prefix matches first. -/
def pRank (q : List Char) (r : SResult) : Nat := if prefQ q r then 0 else 1

/-- The four ranking criteria bundled as a lexicographic key. -/
def rkey (q : List Char) (r : SResult) : Lex (Nat × Lex (Nat × Lex (Nat × Rat))) :=
  toLex (typeRank r, toLex (eRank q r, toLex (pRank q r, -rval r)))

instance specEquiv_dec (q : List Char) (a b : SResult) :
    Decidable (specEquiv q a b) :=
  inferInstanceAs (Decidable (_ ∧ _ ∧ _ ∧ _))

/-! ### Properties of the edit-distance implementation -/

theorem lev_cons_cons (a b : Char) (s t : List Char) :
    lev (a :: s) (b :: t) =
      if a = b then lev s t
      else 1 + m3 (lev s t) (lev (a :: s) t) (lev s (b :: t)) := by
  rw [lev]

theorem lev_nil_left (t : List Char) : lev [] t = t.length := by simp [lev]

theorem lev_nil_right (s : List Char) : lev s [] = s.length := by cases s <;> simp [lev]

theorem lev_comm : ∀ (s t : List Char), lev s t = lev t s := by
  intro s
  induction s with
  | nil => intro t; cases t <;> simp [lev_nil_left, lev_nil_right]
  | cons a s ih =>
    intro t
    induction t with
    | nil => simp [lev_nil_left, lev_nil_right]
    | cons b t iht =>
      rw [lev_cons_cons, lev_cons_cons b a]
      by_cases hab : a = b
      · have hba : b = a := hab.symm
        simp only [if_pos hab, if_pos hba]
        exact ih t
      · have hba : ¬ b = a := fun h => hab h.symm
        simp only [if_neg hab, if_neg hba]
        rw [ih t, iht, ih (b :: t)]
        simp only [m3]
        omega

theorem lev_single_left : ∀ (u : List Char) (x c : Char),
    lev [x] (c :: u) = if x ∈ c :: u then u.length else u.length + 1 := by
  intro u
  induction u with
  | nil =>
    intro x c
    rw [lev_cons_cons, lev_nil_left, lev_nil_left, lev_nil_right]
    by_cases h : x = c <;> simp [h, m3]
  | cons d u' ih =>
    intro x c
    rw [lev_cons_cons, ih x d]
    simp only [lev_nil_left, List.length_cons]
    by_cases hxc : x = c
    · simp [hxc]
    · by_cases hxd : x = d <;> by_cases hxu : x ∈ u' <;>
        simp [hxc, hxd, hxu, m3] <;> omega

theorem lev_single_right (u : List Char) (y c : Char) :
    lev (c :: u) [y] = if y ∈ c :: u then u.length else u.length + 1 := by
  rw [lev_comm]
  exact lev_single_left u y c

theorem lev_append_left_nil : ∀ (t : List Char) (x y : Char),
    lev [x] (t ++ [y]) =
      if x = y then lev [] t
      else 1 + m3 (lev [] t) (lev [x] t) (lev [] (t ++ [y])) := by
  intro t x y
  cases t with
  | nil =>
    rw [show ([] : List Char) ++ [y] = [y] from rfl, lev_cons_cons,
      lev_nil_left, lev_nil_left, lev_nil_right]
  | cons c t' =>
    rw [show (c :: t') ++ [y] = c :: (t' ++ [y]) from rfl,
      lev_single_left (t' ++ [y]) x c, lev_single_left t' x c,
      lev_nil_left, lev_nil_left]
    simp only [List.mem_cons, List.mem_append, List.mem_singleton,
      List.length_append, List.length_cons, List.length_nil, m3]
    by_cases hxc : x = c
    · subst hxc
      by_cases hxy : x = y <;> by_cases hxt : x ∈ t' <;>
        simp [hxy, hxt] <;> omega
    · by_cases hxy : x = y <;> by_cases hxt : x ∈ t' <;>
        simp [hxc, hxy, hxt] <;> omega

theorem lev_append_right_nil (s : List Char) (x y : Char) :
    lev (s ++ [x]) [y] =
      if x = y then lev s []
      else 1 + m3 (lev s []) (lev (s ++ [x]) []) (lev s [y]) := by
  rw [lev_comm, lev_append_left_nil s y x, lev_comm s [y],
    lev_comm s [], lev_comm (s ++ [x]) []]
  by_cases h : x = y
  · simp [h]
  · have h' : ¬ y = x := fun hh => h hh.symm
    simp only [if_neg h, if_neg h', m3]
    omega

set_option maxHeartbeats 800000 in
theorem lev_append_aux : ∀ (n : Nat) (s t : List Char) (x y : Char),
    s.length + t.length ≤ n →
    lev (s ++ [x]) (t ++ [y]) =
      if x = y then lev s t
      else 1 + m3 (lev s t) (lev (s ++ [x]) t) (lev s (t ++ [y])) := by
  intro n
  induction n with
  | zero =>
    intro s t x y h
    match s, t with
    | [], [] => exact lev_append_left_nil [] x y
    | a :: s, t => simp at h
    | [], b :: t => simp at h
  | succ n ih =>
    intro s t x y h
    match s, t with
    | [], t => exact lev_append_left_nil t x y
    | a :: s', [] => exact lev_append_right_nil (a :: s') x y
    | a :: s', b :: t' =>
      have h1 := ih s' t' x y (by simp only [List.length_cons] at h ⊢; omega)
      have h2 := ih (a :: s') t' x y (by simp only [List.length_cons] at h ⊢; omega)
      have h3 := ih s' (b :: t') x y (by simp only [List.length_cons] at h ⊢; omega)
      rw [show (a :: s') ++ [x] = a :: (s' ++ [x]) from rfl] at h2 ⊢
      rw [show (b :: t') ++ [y] = b :: (t' ++ [y]) from rfl] at h3 ⊢
      rw [lev_cons_cons a b (s' ++ [x]) (t' ++ [y]),
        lev_cons_cons a b s' t',
        lev_cons_cons a b (s' ++ [x]) t',
        lev_cons_cons a b s' (t' ++ [y])]
      rw [h1, h2, h3]
      by_cases hab : a = b
      · subst hab
        by_cases hxy : x = y
        · simp only [eq_self_iff_true, if_true, if_pos hxy]
        · simp only [eq_self_iff_true, if_true, if_neg hxy]
      · by_cases hxy : x = y
        · simp only [if_neg hab]
          simp only [if_pos hxy]
        · simp only [if_neg hab]
          rw [if_neg hxy, if_neg hxy, if_neg hxy, if_neg hxy]
          simp only [m3]
          generalize lev s' t' = P
          generalize lev (a :: s') t' = Q
          generalize lev s' (b :: t') = R
          generalize lev (s' ++ [x]) t' = Px
          generalize lev s' (t' ++ [y]) = Py
          generalize lev (a :: (s' ++ [x])) t' = Qx
          generalize lev (a :: s') (t' ++ [y]) = Qy
          generalize lev (s' ++ [x]) (b :: t') = Rx
          generalize lev s' (b :: (t' ++ [y])) = Ry
          simp only [min_add_add_left]
          congr 2
          ac_rfl

theorem lev_append_full (s t : List Char) (x y : Char) :
    lev (s ++ [x]) (t ++ [y]) =
      if x = y then lev s t
      else 1 + m3 (lev s t) (lev (s ++ [x]) t) (lev s (t ++ [y])) :=
  lev_append_aux (s.length + t.length) s t x y (Nat.le_refl _)

theorem m3_add_one (d l a : Nat) : m3 (d + 1) (l + 1) (a + 1) = 1 + m3 d l a := by
  simp only [m3]
  omega

theorem cell_eq (p q : List Char) (y c : Char) :
    (if y = c then lev p q
      else m3 (lev p q + 1) (lev (p ++ [y]) q + 1) (lev p (q ++ [c]) + 1)) =
    lev (p ++ [y]) (q ++ [c]) := by
  rw [m3_add_one, lev_append_full p q y c]

theorem rowAux_row : ∀ (as p q : List Char) (y : Char),
    lev (p ++ [y]) q :: rowAux y as (lev (p ++ [y]) q) (prevList p q as) =
      prevList (p ++ [y]) q as := by
  intro as
  induction as with
  | nil => intro p q y; simp [prevList, rowAux]
  | cons c as' ih =>
    intro p q y
    cases as' with
    | nil =>
      simp only [prevList, rowAux]
      rw [cell_eq p q y c]
    | cons d as'' =>
      simp only [prevList, rowAux]
      rw [cell_eq p q y c]
      have hih := ih p (q ++ [c]) y
      simp only [prevList] at hih
      rw [hih]

theorem runRows_prevList : ∀ (bs a p : List Char),
    runRows a bs p.length (prevList p [] a) = prevList (p ++ bs) [] a := by
  intro bs
  induction bs with
  | nil => intro a p; simp [runRows]
  | cons y bs' ih =>
    intro a p
    have hl : p.length + 1 = lev (p ++ [y]) [] := by
      rw [lev_nil_right]; simp
    simp only [runRows]
    rw [hl, rowAux_row a p [] y]
    have hl2 : lev (p ++ [y]) [] = (p ++ [y]).length := lev_nil_right _
    rw [hl2, ih a (p ++ [y])]
    simp

theorem prevList_getD : ∀ (as p q : List Char),
    (prevList p q as).getD as.length 0 = lev p (q ++ as) := by
  intro as
  induction as with
  | nil => intro p q; simp [prevList]
  | cons c as' ih =>
    intro p q
    simp only [prevList, List.length_cons, List.getD_cons_succ]
    rw [ih p (q ++ [c])]
    simp

theorem prevList_length : ∀ (as p q : List Char),
    (prevList p q as).length = as.length + 1 := by
  intro as
  induction as with
  | nil => intro p q; simp [prevList]
  | cons c as' ih => intro p q; simp [prevList, ih]

theorem prevList_nil_left : ∀ (as q : List Char),
    prevList [] q as = (List.range (as.length + 1)).map (fun j => q.length + j) := by
  intro as
  induction as with
  | nil =>
    intro q
    show [lev [] q] = _
    rw [lev_nil_left, show List.range (([] : List Char).length + 1) = [0] from rfl]
    simp
  | cons c as' ih =>
    intro q
    show lev [] q :: prevList [] (q ++ [c]) as' = _
    rw [ih (q ++ [c]), lev_nil_left]
    conv_rhs => rw [List.length_cons, List.range_succ_eq_map]
    simp only [List.map_cons, List.map_map, Nat.add_zero, List.length_append,
      List.length_cons, List.length_nil]
    congr 1
    apply List.map_congr_left
    intro j _
    simp only [Function.comp_apply]
    omega

theorem getEditDistance_eq_lev : ∀ (a b : List Char), getEditDistance a b = lev a b := by
  intro a b
  unfold getEditDistance
  by_cases ha : a.length = 0
  · have h : a = [] := List.length_eq_zero.mp ha
    subst h
    simp [lev_nil_left]
  · by_cases hb : b.length = 0
    · have h : b = [] := List.length_eq_zero.mp hb
      subst h
      simp [ha, lev_nil_right]
    · simp only [if_neg ha, if_neg hb]
      have h0 : List.range (a.length + 1) = prevList [] [] a := by
        rw [prevList_nil_left]
        simp
      have hrun : runRows a b 0 (prevList [] [] a) = prevList b [] a := by
        simpa using runRows_prevList b a []
      have hg : (prevList b [] a).getD a.length 0 = lev b a := by
        simpa using prevList_getD a b []
      rw [h0, hrun, hg]
      exact lev_comm b a

/-- C7: `getEditDistance(a, b)` equals the classic Levenshtein distance with
unit-cost insert, delete and substitute; the table rows carry `|a| + 1`
cells (the 2-D table is `(|b|+1) x (|a|+1)` including the initial row); and
in particular the distance between "phonix" and "phoenix" is 1. -/
theorem c7_editDistance :
    (∀ a b : List Char, getEditDistance a b = lev a b) ∧
    (∀ a b : List Char,
      (runRows a b 0 (List.range (a.length + 1))).length = a.length + 1) ∧
    getEditDistance "phonix".data "phoenix".data = 1 := by
  refine ⟨getEditDistance_eq_lev, ?_, by decide⟩
  intro a b
  have h0 : List.range (a.length + 1) = prevList [] [] a := by
    rw [prevList_nil_left]
    simp
  have hrun : runRows a b 0 (prevList [] [] a) = prevList b [] a := by
    simpa using runRows_prevList b a []
  rw [h0, hrun, prevList_length]

/-! ### Properties of the autocomplete scorer -/

theorem startsL_refl : ∀ (l : List Char), startsL l l = true := by
  intro l
  induction l with
  | nil => rfl
  | cons c cs ih => simp [startsL, ih]

theorem subStr_refl : ∀ (l : List Char), subStr l l = true := by
  intro l
  cases l with
  | nil => rfl
  | cons c cs => simp [subStr, startsL_refl]

theorem splitWsAux_noWs : ∀ (l acc : List Char),
    (∀ ch ∈ l, ch.isWhitespace = false) →
    splitWsAux l (some acc) = [acc.reverse ++ l] := by
  intro l
  induction l with
  | nil => intro acc _; simp [splitWsAux]
  | cons c r ih =>
    intro acc h
    have hc : c.isWhitespace = false := h c (List.mem_cons_self c r)
    simp only [splitWsAux, hc, Bool.false_eq_true, if_false]
    rw [ih (c :: acc) (fun ch hch => h ch (List.mem_cons_of_mem c hch))]
    simp

theorem splitWs_noWs (l : List Char) (h : ∀ ch ∈ l, ch.isWhitespace = false) :
    splitWs l = [l] := by
  rw [splitWs, splitWsAux_noWs l [] h]
  simp

theorem foldl_weight {α : Type} (step : Nat × Bool → α → Nat × Bool)
    (f : α → Nat) (g : α → Bool)
    (hstep : ∀ p t, step p t = (p.1 + f t, p.2 || g t)) :
    ∀ (ts : List α) (p : Nat × Bool),
      ts.foldl step p = (p.1 + (ts.map f).sum, p.2 || ts.any g) := by
  intro ts
  induction ts with
  | nil => intro p; simp
  | cons t ts ih =>
    intro p
    rw [List.foldl_cons, hstep, ih]
    simp [Nat.add_assoc, Bool.or_assoc]

theorem ifStep_eq (cnd : Prop) [Decidable cnd] (w s : Nat) (m : Bool) :
    (if cnd then (s + w, true) else (s, m)) =
      (s + (if cnd then w else 0), m || decide cnd) := by
  by_cases h : cnd <;> simp [h]

theorem ifStep0_eq (cnd : Prop) [Decidable cnd] (w : Nat) :
    (if cnd then ((w : Nat), true) else ((0 : Nat), false)) =
      ((if cnd then w else 0), decide cnd) := by
  by_cases h : cnd <;> simp [h]

theorem tokens_foldl (q : List Char) (p : Nat × Bool) (ts : List String) :
    ts.foldl (fun p t =>
        if t.data = q then (p.1 + 30, true)
        else if startsL q t.data then (p.1 + 20, true)
        else if subStr q t.data then (p.1 + 10, true)
        else p) p
      = (p.1 + (ts.map (tokenWeight q)).sum, p.2 || ts.any (tokenHit q)) := by
  refine foldl_weight _ (tokenWeight q) (tokenHit q) ?_ ts p
  intro p t
  by_cases h1 : t.data = q
  · simp [h1, tokenWeight, tokenHit]
  · by_cases h2 : startsL q t.data <;> by_cases h3 : subStr q t.data <;>
      simp [h1, h2, h3, tokenWeight, tokenHit]

theorem words_foldl (q : List Char) (p : Nat × Bool) (ws : List (List Char)) :
    ws.foldl (fun p w =>
        if w = q then (p.1 + 40, true)
        else if startsL q w then (p.1 + 30, true)
        else p) p
      = (p.1 + (ws.map (wordWeight q)).sum, p.2 || ws.any (wordHit q)) := by
  refine foldl_weight _ (wordWeight q) (wordHit q) ?_ ws p
  intro p w
  by_cases h1 : w = q
  · simp [h1, wordWeight, wordHit]
  · by_cases h2 : startsL q w <;> simp [h1, h2, wordWeight, wordHit]

theorem scoreBase_eq (c : City) (query : String) :
    scoreBase c query = (cityBasePoints c query, cityBaseHit c query) := by
  cases hts : c.search_tokens with
  | none =>
    simp only [scoreBase, cityBasePoints, cityBaseHit, hts]
    rw [words_foldl]
    simp only [ifStep0_eq, ifStep_eq, Bool.decide_coe, Nat.zero_add]
    simp only [Prod.mk.injEq]
    constructor
    · omega
    · simp [Bool.or_assoc]
  | some ts =>
    simp only [scoreBase, cityBasePoints, cityBaseHit, hts]
    rw [tokens_foldl, words_foldl]
    simp only [ifStep0_eq, ifStep_eq, Bool.decide_coe, Nat.zero_add]

theorem fuzzyFires_iff (c : City) (query : String) :
    fuzzyFires c query = true ↔
      (cityBaseHit c query = false ∧ 3 < (normQ query).length ∧
        getEditDistance (lower c.name.data) (normQ query) ≤ 2) := by
  simp [fuzzyFires, Bool.and_eq_true, Bool.not_eq_true', and_assoc]

theorem scoreCity_eq (c : City) (query : String) :
    scoreCity c query =
      (cityBasePoints c query + (if fuzzyFires c query then 5 else 0) +
        (if cityBaseHit c query || fuzzyFires c query then boostPoints c else 0),
       cityBaseHit c query || fuzzyFires c query) := by
  by_cases hfz : (cityBaseHit c query = false ∧ 3 < (normQ query).length ∧
      getEditDistance (lower c.name.data) (normQ query) ≤ 2)
  · have hf : fuzzyFires c query = true := (fuzzyFires_iff c query).mpr hfz
    have hh : cityBaseHit c query = false := hfz.1
    simp only [scoreCity, scoreBase_eq]
    rw [if_pos hfz]
    simp only [hf, hh, boostPoints, Bool.false_or, if_true, ite_true,
      eq_self_iff_true]
    by_cases hp : 1000000 < c.population <;> by_cases hfc : 50 < c.facility_count <;>
      simp [hp, hfc]
  · have hf : fuzzyFires c query = false := by
      cases h : fuzzyFires c query
      · rfl
      · exact absurd ((fuzzyFires_iff c query).mp h) hfz
    simp only [scoreCity, scoreBase_eq, hf, if_neg hfz, boostPoints,
      Bool.or_false, if_false, ite_false, Nat.add_zero]
    by_cases hh : cityBaseHit c query <;>
      by_cases hp : 1000000 < c.population <;> by_cases hfc : 50 < c.facility_count <;>
      simp [hh, hp, hfc]

/-- C8: in `findMatches`, the fuzzy weight 5 is added exactly when the query
is longer than 3 characters, no other scoring signal matched, and the edit
distance between the normalized city name and the query is at most 2; in
particular any substring hit (weight 25) forces the score to be the plain
signal sum plus boosts, with no fuzzy contribution, and makes the base
score at least 25. -/
theorem c8_fuzzyGate (c : City) (query : String) :
    ((scoreCity c query).1 =
      cityBasePoints c query +
        (if cityBaseHit c query = false ∧ 3 < (normQ query).length ∧
            getEditDistance (lower c.name.data) (normQ query) ≤ 2 then 5 else 0) +
        (if (scoreCity c query).2 then boostPoints c else 0)) ∧
    (subStr (normQ query) (lower c.name.data) = true →
      (scoreCity c query).1 = cityBasePoints c query + boostPoints c ∧
        25 ≤ cityBasePoints c query) := by
  have hsc := scoreCity_eq c query
  constructor
  · rw [hsc]
    by_cases hfz : (cityBaseHit c query = false ∧ 3 < (normQ query).length ∧
        getEditDistance (lower c.name.data) (normQ query) ≤ 2)
    · have hf : fuzzyFires c query = true := (fuzzyFires_iff c query).mpr hfz
      simp [hf, hfz, hfz.1]
    · have hf : fuzzyFires c query = false := by
        cases h : fuzzyFires c query
        · rfl
        · exact absurd ((fuzzyFires_iff c query).mp h) hfz
      simp [hf, hfz]
  · intro hsub
    have hhit : cityBaseHit c query = true := by
      simp [cityBaseHit, hsub]
    have hf : fuzzyFires c query = false := by
      simp [fuzzyFires, hhit]
    constructor
    · rw [hsc]
      simp [hf, hhit]
    · have h25 : (if subStr (normQ query) (lower c.name.data) = true
          then (25 : Nat) else 0) = 25 := by rw [if_pos hsub]
      calc (25 : Nat) = if subStr (normQ query) (lower c.name.data) = true
              then 25 else 0 := h25.symm
        _ ≤ cityBasePoints c query := by
          simp only [cityBasePoints]
          omega

/-- C1 counterexample: for the query "Austin" against the city named
"Austin" (no state, token or boost signals), `findMatches` assigns score
215, not 140 — the exact-match weight 100 stacks with the prefix weight
50, the substring weight 25 and the word-boundary weight 40. -/
theorem c1_counterexample :
    lower austinCity.name.data = normQ "Austin" ∧
    (scoreCity austinCity "Austin").1 = 215 ∧
    ¬ (scoreCity austinCity "Austin").1 = 140 := by
  refine ⟨by decide, by decide, by decide⟩

/-- C1 amended: a City whose normalized single-word name equals the
normalized query, with no state, abbreviation or token signal and no
population or facility-count boost, scores exactly 100 + 50 + 25 + 40 = 215
(exact, prefix, substring and word-boundary weights all stack). -/
theorem c1_amended (c : City) (query : String)
    (hname : lower c.name.data = normQ query)
    (hw : ∀ ch ∈ lower c.name.data, ch.isWhitespace = false)
    (hstate : subStr (normQ query) (lower c.state.data) = false)
    (habbr : ¬ lower c.state_abbr.data = normQ query)
    (htok : c.search_tokens = none)
    (hpop : c.population ≤ 1000000)
    (hfac : c.facility_count ≤ 50) :
    scoreCity c query = (215, true) := by
  have hhit : cityBaseHit c query = true := by
    simp [cityBaseHit, hname]
  have hf : fuzzyFires c query = false := by
    simp [fuzzyFires, hhit]
  have hpts : cityBasePoints c query = 215 := by
    simp only [cityBasePoints, htok, hname, hstate, habbr]
    rw [splitWs_noWs (normQ query) (hname ▸ hw)]
    simp [wordWeight, startsL_refl, subStr_refl]
  rw [scoreCity_eq, hpts, hhit, hf]
  have hp : ¬ 1000000 < c.population := not_lt.mpr hpop
  have hc : ¬ 50 < c.facility_count := not_lt.mpr hfac
  simp [boostPoints, hp, hc]

/-- Witness for the amended C1 at the concrete city "Austin". -/
theorem c1_amended_witness :
    lower austinCity.name.data = normQ "Austin" ∧
    scoreCity austinCity "Austin" = (215, true) :=
  ⟨by decide, c1_amended austinCity "Austin" (by decide) (by decide) (by decide)
    (by decide) (by decide) (by decide) (by decide)⟩

/-- Witness for C8 at the concrete city "Austin" with query "Austin"
(a substring hit suppressing the fuzzy signal). -/
theorem c8_fuzzyGate_witness :
    subStr (normQ "Austin") (lower austinCity.name.data) = true ∧
    ((scoreCity austinCity "Austin").1 =
      cityBasePoints austinCity "Austin" + boostPoints austinCity ∧
      25 ≤ cityBasePoints austinCity "Austin") :=
  ⟨by decide, (c8_fuzzyGate austinCity "Austin").2 (by decide)⟩

/-! ### Properties of the browser filter and distance sentinel -/

/-- C2 counterexample: with an active radius filter (truthy user lat/lng),
the city "Austin" with no coordinates field still passes
`filterSearchResults` — the distance predicate defaults to true (fail-open),
it does not fail closed as the spec claims. -/
theorem c2_counterexample :
    austinCity.coordinates = none ∧
    numTruthy geoParams.lat = true ∧ numTruthy geoParams.lng = true ∧
    cityPasses hav0 geoParams austinCity = true := by
  refine ⟨rfl, by decide, by decide, by decide⟩

/-- C2 amended: in `filterSearchResults` a record lacking a coordinates
field passes the distance predicate unconditionally (fail-open): the filter
reduces to the remaining text/state/cost (and for facilities care-type /
amenities / rating) predicates, for both City and Facility records. -/
theorem c2_amended (hav : Rat → Rat → Rat → Rat → Rat) (p : SearchParams) :
    (∀ c : City, c.coordinates = none →
      cityPasses hav p c =
        (cityMatchesQuery p.query c && cityMatchesState p.state c &&
          cityMatchesCost p.costRange c)) ∧
    (∀ f : Facility, f.coordinates = none →
      facPasses hav p f =
        (facMatchesQuery p.query f && facMatchesCareType p.careType f &&
          facMatchesState p.state f && facMatchesAmenities p.amenities f &&
          facMatchesRating p.rating f)) := by
  constructor
  · intro c hc
    simp [cityPasses, cityMatchesDistance, hc]
  · intro f hf
    simp [facPasses, facMatchesDistance, hf]

/-- Witness for the amended C2 at the coordinate-less city "Austin" and a
coordinate-less facility. -/
theorem c2_amended_witness :
    cityPasses hav0 geoParams austinCity =
      (cityMatchesQuery geoParams.query austinCity &&
        cityMatchesState geoParams.state austinCity &&
        cityMatchesCost geoParams.costRange austinCity) ∧
    facPasses hav0 geoParams { zeroLatFac with coordinates := none } =
      (facMatchesQuery geoParams.query { zeroLatFac with coordinates := none } &&
        facMatchesCareType geoParams.careType { zeroLatFac with coordinates := none } &&
        facMatchesState geoParams.state { zeroLatFac with coordinates := none } &&
        facMatchesAmenities geoParams.amenities { zeroLatFac with coordinates := none } &&
        facMatchesRating geoParams.rating { zeroLatFac with coordinates := none }) :=
  ⟨(c2_amended hav0 geoParams).1 austinCity rfl,
   (c2_amended hav0 geoParams).2 { zeroLatFac with coordinates := none } rfl⟩

/-- C10: `calculateDistance` returns the sentinel 999999 whenever any of
its four coordinate arguments is absent or exactly 0 (JS falsiness), and
consequently, under an active radius filter with any radius below 999999,
every record whose stored latitude or longitude is exactly 0 is excluded,
for both City and Facility records. -/
theorem c10_sentinel :
    (∀ (hav : Rat → Rat → Rat → Rat → Rat) (l1 l2 l3 l4 : Option Rat),
      (l1 = none ∨ l1 = some 0 ∨ l2 = none ∨ l2 = some 0 ∨
       l3 = none ∨ l3 = some 0 ∨ l4 = none ∨ l4 = some 0) →
      calculateDistance hav l1 l2 l3 l4 = 999999) ∧
    (∀ (hav : Rat → Rat → Rat → Rat → Rat) (p : SearchParams) (c : City)
        (co : Rat × Rat),
      c.coordinates = some co → (co.1 = 0 ∨ co.2 = 0) →
      numTruthy p.lat = true → numTruthy p.lng = true →
      p.distance < 999999 →
      cityPasses hav p c = false) ∧
    (∀ (hav : Rat → Rat → Rat → Rat → Rat) (p : SearchParams) (f : Facility)
        (co : Rat × Rat),
      f.coordinates = some co → (co.1 = 0 ∨ co.2 = 0) →
      numTruthy p.lat = true → numTruthy p.lng = true →
      p.distance < 999999 →
      facPasses hav p f = false) := by
  have hsent : ∀ (hav : Rat → Rat → Rat → Rat → Rat) (l1 l2 l3 l4 : Option Rat),
      (l1 = none ∨ l1 = some 0 ∨ l2 = none ∨ l2 = some 0 ∨
       l3 = none ∨ l3 = some 0 ∨ l4 = none ∨ l4 = some 0) →
      calculateDistance hav l1 l2 l3 l4 = 999999 := by
    intro hav l1 l2 l3 l4 h
    rcases h with h | h | h | h | h | h | h | h <;>
      simp [calculateDistance, jsFalsyOpt, h]
  refine ⟨hsent, ?_, ?_⟩
  · intro hav p c co hco hzero hlat hlng hdist
    have hcd : calculateDistance hav p.lat p.lng (some co.1) (some co.2) = 999999 := by
      apply hsent
      rcases hzero with h0 | h0
      · right; right; right; right; right; left
        simp [h0]
      · right; right; right; right; right; right; right
        simp [h0]
    have hmd : cityMatchesDistance hav p.lat p.lng p.distance c = false := by
      simp only [cityMatchesDistance, hlat, hlng, hco, Option.isSome_some,
        Option.map_some', Bool.and_self, Bool.and_true, if_true, hcd,
        decide_eq_false_iff_not]
      exact not_le.mpr hdist
    simp [cityPasses, hmd]
  · intro hav p f co hco hzero hlat hlng hdist
    have hcd : calculateDistance hav p.lat p.lng (some co.1) (some co.2) = 999999 := by
      apply hsent
      rcases hzero with h0 | h0
      · right; right; right; right; right; left
        simp [h0]
      · right; right; right; right; right; right; right
        simp [h0]
    have hmd : facMatchesDistance hav p.lat p.lng p.distance f = false := by
      simp only [facMatchesDistance, hlat, hlng, hco, Option.isSome_some,
        Option.map_some', Bool.and_self, Bool.and_true, if_true, hcd,
        decide_eq_false_iff_not]
      exact not_le.mpr hdist
    simp [facPasses, hmd]

/-- Witness for C10: the sentinel fires on a zero latitude, and the
zero-latitude city and facility are excluded under a 25-mile radius filter. -/
theorem c10_sentinel_witness :
    calculateDistance hav0 (some 1) (some 1) (some 0) (some 5) = 999999 ∧
    cityPasses hav0 geoParams zeroLatCity = false ∧
    facPasses hav0 geoParams zeroLatFac = false :=
  ⟨c10_sentinel.1 hav0 (some 1) (some 1) (some 0) (some 5) (by simp),
   c10_sentinel.2.1 hav0 geoParams zeroLatCity (0, 5) rfl (Or.inl rfl)
     (by decide) (by decide) (by decide),
   c10_sentinel.2.2 hav0 geoParams zeroLatFac (0, 5) rfl (Or.inl rfl)
     (by decide) (by decide) (by decide)⟩

/-! ### Properties of the cost-bracket, state and care-type filters -/

/-- C3 counterexample: a record with cost exactly 4000 is accepted by the
browser bracket filter for `3000-4000` but rejected by the `search_api.js`
bracket filter for the same bracket — the server brackets are half-open,
so the claim does not hold for every implementation of the filter. -/
theorem c3_counterexample :
    cityMatchesCost "3000-4000" { austinCity with assisted_living_cost := 4000 } = true ∧
    serverCostMatch "3000-4000" (some (some 4000)) = false := by
  refine ⟨by decide, by decide⟩

/-- C3 amended: the browser bracket filter is inclusive on both ends for
the three middle brackets (so cost 4000 satisfies both `3000-4000` and
`4000-5000`), while the `search_api.js` bracket filter is half-open
`[lo, hi)` (so cost 4000 satisfies only `4000-5000` there). -/
theorem c3_amended :
    (∀ c : City,
      (cityMatchesCost "3000-4000" c = true ↔
        3000 ≤ c.assisted_living_cost ∧ c.assisted_living_cost ≤ 4000) ∧
      (cityMatchesCost "4000-5000" c = true ↔
        4000 ≤ c.assisted_living_cost ∧ c.assisted_living_cost ≤ 5000) ∧
      (cityMatchesCost "5000-6000" c = true ↔
        5000 ≤ c.assisted_living_cost ∧ c.assisted_living_cost ≤ 6000) ∧
      (cityMatchesCost "3000-4000" c = false ↔ c.assisted_living_cost < 3000 ∨
        4000 < c.assisted_living_cost)) ∧
    (∀ c : City, c.assisted_living_cost = 4000 →
      cityMatchesCost "3000-4000" c = true ∧ cityMatchesCost "4000-5000" c = true) ∧
    (∀ cost : Int,
      (serverCostMatch "3000-4000" (some (some cost)) = true ↔
        3000 ≤ cost ∧ cost < 4000) ∧
      (serverCostMatch "4000-5000" (some (some cost)) = true ↔
        4000 ≤ cost ∧ cost < 5000) ∧
      (serverCostMatch "5000-6000" (some (some cost)) = true ↔
        5000 ≤ cost ∧ cost < 6000)) := by
  refine ⟨?_, ?_, ?_⟩
  · intro c
    refine ⟨?_, ?_, ?_, ?_⟩ <;> (simp +decide [cityMatchesCost]; try omega)
  · intro c h4
    constructor <;> simp +decide [cityMatchesCost, h4]
  · intro cost
    refine ⟨?_, ?_, ?_⟩ <;> (simp +decide [serverCostMatch]; try omega)

/-- Witness for the amended C3 at cost exactly 4000. -/
theorem c3_amended_witness :
    cityMatchesCost "3000-4000" { austinCity with assisted_living_cost := 4000 } = true ∧
    cityMatchesCost "4000-5000" { austinCity with assisted_living_cost := 4000 } = true ∧
    (serverCostMatch "3000-4000" (some (some 4000)) = true ↔
      (3000 : Int) ≤ 4000 ∧ (4000 : Int) < 4000) :=
  ⟨(c3_amended.2.1 { austinCity with assisted_living_cost := 4000 } (by decide)).1,
   (c3_amended.2.1 { austinCity with assisted_living_cost := 4000 } (by decide)).2,
   (c3_amended.2.2 4000).1⟩

/-- C4 counterexample: the browser state filter compares with `===`: the
city with abbreviation "TX" does not pass the filter value "tx" although
the two are equal case-insensitively, refuting the case-insensitivity of
the state filter as a property of every implementation. -/
theorem c4_counterexample :
    lower "TX".data = lower "tx".data ∧
    cityMatchesState "tx" { austinCity with state_abbr := "TX" } = false := by
  refine ⟨by decide, by decide⟩

/-- C4 amended: the netlify function state filter is case-insensitive
(lower-cased equality on the abbreviation for cities and on the state field
for facilities), while the browser `filterSearchResults` state filter is
case-sensitive `===` (on the abbreviation for cities and on the state field
for facilities). -/
theorem c4_amended :
    (∀ (st : String) (c : City), st.isEmpty = false →
      (netlifyCityStateMatch st c = true ↔ lower c.state_abbr.data = lower st.data)) ∧
    (∀ (st : String) (c : City), st.isEmpty = false →
      (cityMatchesState st c = true ↔ c.state_abbr = st)) ∧
    (∀ (st : String) (f : Facility), st.isEmpty = false →
      (netlifyFacStateMatch st f = true ↔ lower f.state.data = lower st.data)) ∧
    (∀ (st : String) (f : Facility), st.isEmpty = false →
      (facMatchesState st f = true ↔ f.state = st)) := by
  refine ⟨?_, ?_, ?_, ?_⟩ <;> intro st r h <;>
    simp [netlifyCityStateMatch, cityMatchesState, netlifyFacStateMatch,
      facMatchesState, h]

/-- Witness for the amended C4 on the filter value "tx" against "TX". -/
theorem c4_amended_witness :
    (netlifyCityStateMatch "tx" { austinCity with state_abbr := "TX" } = true ↔
      lower ({ austinCity with state_abbr := "TX" } : City).state_abbr.data =
        lower "tx".data) ∧
    (cityMatchesState "tx" { austinCity with state_abbr := "TX" } = true ↔
      ({ austinCity with state_abbr := "TX" } : City).state_abbr = "tx") :=
  ⟨c4_amended.1 "tx" { austinCity with state_abbr := "TX" } (by decide),
   c4_amended.2.1 "tx" { austinCity with state_abbr := "TX" } (by decide)⟩

/-- C5 counterexample: the netlify care-type filter is a case-insensitive
substring test: the fragment "sted" matches the facility care type
"assisted-living" although it is not an exact normalized token, refuting
the exact-token property as a property of every implementation. -/
theorem c5_counterexample :
    netlifyCareTypeMatch "sted" zeroLatFac = true ∧
    zeroLatFac.care_types.any (fun t => hyphenNorm t == "sted".data) = false := by
  refine ⟨by decide, by decide⟩

/-- C5 amended: the `search_api.js` care-type filter is an exact-token
match after lower-casing and whitespace-to-hyphen normalisation; the
netlify function uses a case-insensitive substring test; the browser
filter uses case-sensitive exact array membership with no normalisation. -/
theorem c5_amended :
    (∀ (ct : String) (careTypes : List String), lower ct.data ≠ [] →
      (serverCareTypeMatch ct careTypes = true ↔
        ∃ t ∈ careTypes, hyphenNorm t = lower ct.data)) ∧
    (∀ (ct : String) (f : Facility), ct.isEmpty = false →
      (netlifyCareTypeMatch ct f = true ↔
        ∃ t ∈ f.care_types, subStr (lower ct.data) (lower t.data) = true)) ∧
    (∀ (ct : String) (f : Facility), ct.isEmpty = false →
      (facMatchesCareType ct f = true ↔ ct ∈ f.care_types)) := by
  refine ⟨?_, ?_, ?_⟩
  · intro ct careTypes h
    simp [serverCareTypeMatch, h, List.any_eq_true]
  · intro ct f h
    simp [netlifyCareTypeMatch, h, List.any_eq_true]
  · intro ct f h
    simp [facMatchesCareType, h, List.elem_iff]

/-- Witness for the amended C5: "assisted living" normalises to the exact
token "assisted-living" in the server filter, while the browser membership
test is sensitive to the exact stored spelling. -/
theorem c5_amended_witness :
    (serverCareTypeMatch "Assisted Living" ["assisted-living"] = true ↔
      ∃ t ∈ ["assisted-living"], hyphenNorm t = lower "Assisted Living".data) ∧
    (facMatchesCareType "assisted-living" zeroLatFac = true ↔
      "assisted-living" ∈ zeroLatFac.care_types) :=
  ⟨c5_amended.1 "Assisted Living" ["assisted-living"] (by decide),
   c5_amended.2.2 "assisted-living" zeroLatFac (by decide)⟩

/-! ### Properties of the paginator -/

theorem pages_le_iff (len limit k : Nat) (hs : 0 < limit) :
    (len + limit - 1) / limit ≤ k ↔ len ≤ k * limit := by
  rw [← Nat.not_lt, ← Nat.not_lt]
  apply not_congr
  rw [Nat.lt_iff_add_one_le, Nat.lt_iff_add_one_le, Nat.le_div_iff_mul_le hs,
    Nat.succ_mul]
  generalize k * limit = A
  omega

/-- C6: the paginator of `search_api.js` slices 1-indexed pages of the given
size, reports the page count as the ceiling of `total / page_size`
(characterised by its Galois property, with 0 pages for an empty list),
returns an empty item slice with the total unchanged for any page beyond
the page count, and in particular 100 items with page 3 and page size 50
yield 2 pages and an empty slice. -/
theorem c6_paginator {α : Type} (l : List α) (page limit : Nat)
    (hs : 0 < limit) (hp : 1 ≤ page) :
    (paginateApi l page limit).total = l.length ∧
    ((paginateApi l page limit).pages = 0 ↔ l.length = 0) ∧
    (∀ k, (paginateApi l page limit).pages ≤ k ↔ l.length ≤ k * limit) ∧
    (∀ i, i < limit →
      (paginateApi l page limit).items[i]? = l[(page - 1) * limit + i]?) ∧
    ((paginateApi l page limit).pages < page →
      (paginateApi l page limit).items = [] ∧
      (paginateApi l page limit).total = l.length) ∧
    (paginateApi (List.range 100) 3 50).pages = 2 ∧
    (paginateApi (List.range 100) 3 50).items = ([] : List Nat) := by
  have hgal : ∀ k, (paginateApi l page limit).pages ≤ k ↔ l.length ≤ k * limit := by
    intro k
    simp only [paginateApi]
    exact pages_le_iff l.length limit k hs
  refine ⟨rfl, ?_, hgal, ?_, ?_, by decide, by decide⟩
  · have h0 := hgal 0
    simp only [Nat.zero_mul, Nat.le_zero] at h0
    simpa [Nat.le_zero] using h0
  · intro i hi
    simp only [paginateApi]
    rw [List.getElem?_take_of_lt hi, List.getElem?_drop]
  · intro hbeyond
    have h1 : (paginateApi l page limit).pages ≤ page - 1 := by omega
    have h2 : l.length ≤ (page - 1) * limit := (hgal (page - 1)).mp h1
    refine ⟨?_, rfl⟩
    simp only [paginateApi]
    rw [List.drop_eq_nil_of_le h2]
    simp

/-- Witness for C6 at the concrete 100-item list, page 3, page size 50. -/
theorem c6_paginator_witness :
    (paginateApi (List.range 100) 3 50).pages = 2 ∧
    (paginateApi (List.range 100) 3 50).items = ([] : List Nat) :=
  ⟨(c6_paginator (List.range 100) 3 50 (by decide) (by decide)).2.2.2.2.2.1,
   (c6_paginator (List.range 100) 3 50 (by decide) (by decide)).2.2.2.2.2.2⟩

/-! ### Properties of the result ranker -/

theorem typeRank_lt_iff (a b : SResult) :
    typeRank a < typeRank b ↔ (a.rtype = RType.city ∧ b.rtype = RType.facility) := by
  cases ha : a.rtype <;> cases hb : b.rtype <;> simp [typeRank, ha, hb]

theorem typeRank_eq_iff (a b : SResult) :
    typeRank a = typeRank b ↔ a.rtype = b.rtype := by
  cases ha : a.rtype <;> cases hb : b.rtype <;> simp [typeRank, ha, hb]

theorem eRank_lt_iff (q : List Char) (a b : SResult) :
    eRank q a < eRank q b ↔ (exactQ q a ∧ ¬ exactQ q b) := by
  by_cases ha : exactQ q a <;> by_cases hb : exactQ q b <;> simp [eRank, ha, hb]

theorem eRank_eq_iff (q : List Char) (a b : SResult) :
    eRank q a = eRank q b ↔ (exactQ q a ↔ exactQ q b) := by
  by_cases ha : exactQ q a <;> by_cases hb : exactQ q b <;> simp [eRank, ha, hb]

theorem pRank_lt_iff (q : List Char) (a b : SResult) :
    pRank q a < pRank q b ↔ (prefQ q a ∧ ¬ prefQ q b) := by
  by_cases ha : prefQ q a <;> by_cases hb : prefQ q b <;> simp [pRank, ha, hb]

theorem pRank_eq_iff (q : List Char) (a b : SResult) :
    pRank q a = pRank q b ↔ (prefQ q a ↔ prefQ q b) := by
  by_cases ha : prefQ q a <;> by_cases hb : prefQ q b <;> simp [pRank, ha, hb]

theorem specLE_iff_rkey (q : List Char) (a b : SResult) :
    specLE q a b ↔ rkey q a ≤ rkey q b := by
  rw [specLE, rkey, rkey, Prod.Lex.le_iff, Prod.Lex.le_iff, Prod.Lex.le_iff]
  simp only [typeRank_lt_iff, typeRank_eq_iff, eRank_lt_iff, eRank_eq_iff,
    pRank_lt_iff, pRank_eq_iff, neg_le_neg_iff]

theorem specEquiv_iff (q : List Char) (a b : SResult) :
    specEquiv q a b ↔ (specLE q a b ∧ specLE q b a) := by
  rw [specEquiv, specLE, specLE]
  constructor
  · rintro ⟨h1, h2, h3, h4⟩
    constructor
    · exact Or.inr ⟨h1, Or.inr ⟨h2, Or.inr ⟨h3, le_of_eq h4.symm⟩⟩⟩
    · exact Or.inr ⟨h1.symm, Or.inr ⟨h2.symm, Or.inr ⟨h3.symm, le_of_eq h4⟩⟩⟩
  · rintro ⟨hab, hba⟩
    rcases hab with ⟨hac, hbf⟩ | ⟨ht, hrest⟩
    · rcases hba with ⟨hbc, haf⟩ | ⟨ht, _⟩
      · rw [hac] at haf; exact absurd haf (by simp)
      · rw [hac, hbf] at ht; exact absurd ht (by simp)
    · rcases hba with ⟨hbc, haf⟩ | ⟨ht2, hrest2⟩
      · rw [hbc] at ht; rw [haf] at ht; exact absurd ht (by simp)
      · refine ⟨ht, ?_⟩
        rcases hrest with ⟨hea, hneb⟩ | ⟨hee, hr⟩
        · rcases hrest2 with ⟨heb, _⟩ | ⟨hee2, _⟩
          · exact absurd heb hneb
          · exact absurd (hee2.mpr hea) hneb
        · rcases hrest2 with ⟨heb, hnea⟩ | ⟨hee2, hr2⟩
          · exact absurd (hee.mpr heb) hnea
          · refine ⟨hee, ?_⟩
            rcases hr with ⟨hpa, hnpb⟩ | ⟨hpp, hv⟩
            · rcases hr2 with ⟨hpb, _⟩ | ⟨hpp2, _⟩
              · exact absurd hpb hnpb
              · exact absurd (hpp2.mpr hpa) hnpb
            · rcases hr2 with ⟨hpb, hnpa⟩ | ⟨hpp2, hv2⟩
              · exact absurd (hpp.mpr hpb) hnpa
              · exact ⟨hpp, le_antisymm hv2 hv⟩

theorem specLE_trans (q : List Char) (a b c : SResult)
    (h1 : specLE q a b) (h2 : specLE q b c) : specLE q a c := by
  rw [specLE_iff_rkey] at h1 h2 ⊢
  exact le_trans h1 h2

theorem specLE_total (q : List Char) (a b : SResult) :
    specLE q a b ∨ specLE q b a := by
  rw [specLE_iff_rkey, specLE_iff_rkey]
  exact le_total _ _

theorem cmpR_le_iff (q : List Char) (a b : SResult) :
    cmpR q a b ≤ 0 ↔ specLE q a b := by
  have hneg : ((-1 : Rat) ≤ 0) := by norm_num
  have hpos : ¬ ((1 : Rat) ≤ 0) := by norm_num
  unfold cmpR
  cases ha : a.rtype <;> cases hb : b.rtype <;>
    by_cases hea : lower a.name.data = q <;> by_cases heb : lower b.name.data = q <;>
    by_cases hpa : startsL q (lower a.name.data) = true <;>
    by_cases hpb : startsL q (lower b.name.data) = true <;>
    simp [ha, hb, hea, heb, hpa, hpb, specLE, exactQ, prefQ, rval, hneg, hpos,
      Int.cast_sub, sub_nonpos, Int.cast_le]

/-- C9: in query-present mode the `search_api.js` ranker emits a
permutation of its input ordered by the four lexicographic criteria —
(1) cities before facilities, (2) exact normalized-name match first,
(3) name-prefix match first, (4) descending population for cities and
descending rating for facilities — and any two candidates equal under all
four criteria keep their original input order (stable sort). -/
theorem c9_ranker (q : List Char) (l : List SResult) :
    List.Perm (rankResults q l) l ∧
    (rankResults q l).Pairwise (specLE q) ∧
    (∀ a b : SResult, specEquiv q a b → [a, b].Sublist l →
      [a, b].Sublist (rankResults q l)) := by
  have htrans : ∀ (a b c : SResult),
      (fun a b => decide (cmpR q a b ≤ 0)) a b = true →
      (fun a b => decide (cmpR q a b ≤ 0)) b c = true →
      (fun a b => decide (cmpR q a b ≤ 0)) a c = true := by
    intro a b c hab hbc
    simp only [decide_eq_true_eq] at hab hbc ⊢
    rw [cmpR_le_iff] at hab hbc ⊢
    exact specLE_trans q a b c hab hbc
  have htotal : ∀ (a b : SResult),
      ((fun a b => decide (cmpR q a b ≤ 0)) a b ||
        (fun a b => decide (cmpR q a b ≤ 0)) b a) = true := by
    intro a b
    simp only [Bool.or_eq_true, decide_eq_true_eq]
    rw [cmpR_le_iff, cmpR_le_iff]
    exact specLE_total q a b
  refine ⟨List.mergeSort_perm l _, ?_, ?_⟩
  · have hs := List.sorted_mergeSort htrans htotal l
    refine List.Pairwise.imp ?_ hs
    intro a b hab
    exact (cmpR_le_iff q a b).mp (by simpa using hab)
  · intro a b heq hsub
    have hle : specLE q a b := ((specEquiv_iff q a b).mp heq).1
    exact List.pair_sublist_mergeSort htrans htotal
      (by simpa using (cmpR_le_iff q a b).mpr hle) hsub

/-- Witness for C9: two cities with equal population (and equal
exact/prefix status for the query "spring") keep their input order. -/
theorem c9_ranker_witness :
    specEquiv "spring".data resA resB ∧
    [resA, resB].Sublist (rankResults "spring".data [resA, resB]) :=
  ⟨by decide,
   (c9_ranker "spring".data [resA, resB]).2.2 resA resB (by decide)
     (List.Sublist.refl [resA, resB])⟩

end Radiant
